import Mathlib

/-!
Shallow embedding of the HACCP checklist application
(src/App.tsx and src/constants.ts, with the bundled types and utils modules).

Conventions of the embedding:
* TypeScript interfaces become Lean structures; optional fields (`unit?`,
  `value?`, `comment?`, `photo?`, `details?`) become `Option` fields, with
  `none` standing for an absent / `undefined` property.
* The JavaScript object/array data flowing through `JSON.parse`,
  `JSON.stringify` and the untyped restore path is modelled by a small `Json`
  inductive; JS truthiness is the `Json.truthy` predicate.
* Clock reads (`Date.now()`, `new Date().toISOString()`) are passed in as
  explicit parameters, since the functions are otherwise pure.
* All functions are total Lean functions: the absence of exceptions in the
  model corresponds to the source's behaviour of catching all exceptions at
  the operation boundary.
-/

/-- `RecordResult` from the types module: the YES / NO outcome of a check. -/
inductive RecordResult where
  | YES
  | NO
deriving DecidableEq, Repr

/-- The `type` field of a `CheckItem`: `'boolean' | 'record'`. -/
inductive ItemType where
  | boolean
  | record
deriving DecidableEq, Repr

/-- The two-valued Japanese domain `'なし' | 'あり'` used by
`HealthRecord.symptom` and `HealthRecord.wound`. -/
inductive JaFlag where
  | nashi
  | ari
deriving DecidableEq, Repr

/-- `CheckItem` from the types module. -/
structure CheckItem where
  id : String
  category : String
  text : String
  type : ItemType
  unit : Option String
  displayOrder : Int
deriving DecidableEq, Repr

/-- `DailyCheckResult` from the types module; `result` may be `null`. -/
structure DailyCheckResult where
  itemId : String
  result : Option RecordResult
  value : Option String
  comment : Option String
  photo : Option String
deriving DecidableEq, Repr

/-- `HealthRecord` from the types module. -/
structure HealthRecord where
  temp : String
  symptom : JaFlag
  wound : JaFlag
  details : Option String
deriving DecidableEq, Repr

/-- `DayRecord` from the types module. -/
structure DayRecord where
  date : String
  checks : List DailyCheckResult
  health : HealthRecord
  lastUpdated : String
deriving DecidableEq, Repr

/-- The persisted unit `{ config, records }` built by App.tsx for
`localStorage` and for the backup export; `records` is the insertion-ordered
JS object mapping date strings to day records, modelled as an association
list. -/
structure AppState where
  config : List CheckItem
  records : List (String × DayRecord)
deriving DecidableEq, Repr

/-- `DEFAULT_CHECKLIST` from src/constants.ts, verbatim. -/
def DEFAULT_CHECKLIST : List CheckItem :=
  [ { id := "c1", category := "一般的衛生管理", text := "調理従事者の健康チェック・服装・手洗い",
      type := ItemType.boolean, unit := none, displayOrder := 1 },
    { id := "c2", category := "一般的衛生管理", text := "調理器具（包丁・まな板）の洗浄・消毒",
      type := ItemType.boolean, unit := none, displayOrder := 2 },
    { id := "c3", category := "一般的衛生管理", text := "冷蔵庫の温度確認（10℃以下）",
      type := ItemType.record, unit := some "℃", displayOrder := 3 },
    { id := "c4", category := "一般的衛生管理", text := "冷凍庫の温度確認（-15℃以下）",
      type := ItemType.record, unit := some "℃", displayOrder := 4 },
    { id := "c5", category := "一般的衛生管理", text := "調理場の清掃・ゴミの処理",
      type := ItemType.boolean, unit := none, displayOrder := 5 },
    { id := "c6", category := "一般的衛生管理", text := "トイレの洗浄・消毒",
      type := ItemType.boolean, unit := none, displayOrder := 6 },
    { id := "h1", category := "重要管理点 (HACCP)", text := "食材受入時の鮮度・品温確認",
      type := ItemType.boolean, unit := none, displayOrder := 7 },
    { id := "h2", category := "重要管理点 (HACCP)", text := "加熱調理時の中心温度確認（75℃ 1分以上）",
      type := ItemType.boolean, unit := none, displayOrder := 8 },
    { id := "h3", category := "重要管理点 (HACCP)", text := "加熱後の食品の冷却処理（速やかに冷却）",
      type := ItemType.boolean, unit := none, displayOrder := 9 },
    { id := "h4", category := "重要管理点 (HACCP)", text := "再加熱時の中心温度確認",
      type := ItemType.boolean, unit := none, displayOrder := 10 },
    { id := "h5", category := "重要管理点 (HACCP)", text := "揚げ油の交換基準確認",
      type := ItemType.boolean, unit := none, displayOrder := 11 } ]

/-! ## Update engine -/

/-- `saveCheck` from `CheckListView` composed with `updateRecord` from `App`:
`saveCheck` filters out any existing check with the same `itemId` and pushes
the new result (`{ ...record, checks: newChecks }`), and `updateRecord` then
stores that record with `lastUpdated` refreshed to the current time `now`
(`updated.lastUpdated = new Date().toISOString()`).  The source operates on a
shallow copy, so the input record value is unchanged; in the pure model this
is a function returning a new `DayRecord`. -/
def saveCheck (record : DayRecord) (result : DailyCheckResult) (now : String) : DayRecord :=
  let newChecks := record.checks.filter (fun c => c.itemId != result.itemId) ++ [result]
  { record with checks := newChecks, lastUpdated := now }

/-! ## Progress calculation (`CheckListView`) -/

/-- The `completedCount` computation of `CheckListView`: the number of
configured items whose check for the day exists and has a truthy (non-null)
`result`. -/
def completedCount (config : List CheckItem) (record : DayRecord) : Nat :=
  (config.filter (fun item =>
    match record.checks.find? (fun r => r.itemId == item.id) with
    | some res => res.result.isSome
    | none => false)).length

/-- `Math.round((completedCount / config.length) * 100)` from `CheckListView`.
JavaScript numbers are modelled as exact rationals: for `n ≠ 0` the rounded
percentage `⌊100·c/n + 1/2⌋` is `(200*c + n) / (2*n)` in natural division
(`Math.round` rounds half toward +∞, and all values here are nonnegative).
When `config.length = 0` the source computes `0 / 0 = NaN` in floating point
and `Math.round(NaN) = NaN`; the absence of a numeric result is modelled as
`none`. -/
def progress (config : List CheckItem) (record : DayRecord) : Option Nat :=
  if config.length = 0 then none
  else some ((200 * completedCount config record + config.length) / (2 * config.length))

/-! ## JSON values

The dynamic JavaScript values flowing through `JSON.parse` / `JSON.stringify`
and the untyped restore path are modelled by a small JSON value type.
Numbers are modelled as exact integers (the only numbers in the persisted
state are `displayOrder` values). -/

/-- A JSON value, as produced by `JSON.parse` and consumed by
`JSON.stringify`; object fields are kept in insertion order, as JavaScript
does for string keys. -/
inductive Json where
  | null : Json
  | bool (b : Bool) : Json
  | num (n : Int) : Json
  | str (s : String) : Json
  | arr (elems : List Json) : Json
  | obj (fields : List (String × Json)) : Json

/-- First field with the given key in a JS object's field list. -/
def lookupField : List (String × Json) → String → Option Json
  | [], _ => none
  | (k, v) :: rest, key => if k = key then some v else lookupField rest key

/-- JS property access `j.key`: `none` models `undefined` (absent property or
access on a non-object). -/
def getField : Json → String → Option Json
  | Json.obj fs, key => lookupField fs key
  | _, _ => none

/-- JavaScript truthiness of a JSON value: `null`, `false`, `0` and `""` are
falsy; objects and arrays are always truthy. -/
def Json.truthy : Json → Bool
  | Json.null => false
  | Json.bool b => b
  | Json.num n => n != 0
  | Json.str s => s != ""
  | Json.arr _ => true
  | Json.obj _ => true

/-- Truthiness of a possibly-absent JS value (`undefined` is falsy). -/
def truthyOpt : Option Json → Bool
  | none => false
  | some j => j.truthy

/-! ## Serialization (`JSON.stringify` of the persisted state)

`encode*` build the JSON tree that `JSON.stringify` serializes for
`localStorage` and for `exportBackupJSON`.  Optional fields that are
`undefined` are dropped by `JSON.stringify`, so a `none` field is encoded by
omitting the property; `result` is always a present property (possibly
`null`) on every stored check, so it is encoded in place. -/

/-- String form of a `CheckItem.type`. -/
def ItemType.toStr : ItemType → String
  | ItemType.boolean => "boolean"
  | ItemType.record => "record"

/-- String form of the `'なし' | 'あり'` domain. -/
def JaFlag.toStr : JaFlag → String
  | JaFlag.nashi => "なし"
  | JaFlag.ari => "あり"

/-- An optional string property: omitted when absent. -/
def optStrField (key : String) : Option String → List (String × Json)
  | none => []
  | some v => [(key, Json.str v)]

/-- JSON encoding of a `CheckItem`. -/
def encodeCheckItem (i : CheckItem) : Json :=
  Json.obj ([("id", Json.str i.id), ("category", Json.str i.category),
             ("text", Json.str i.text), ("type", Json.str i.type.toStr)] ++
            optStrField "unit" i.unit ++
            [("displayOrder", Json.num i.displayOrder)])

/-- JSON encoding of a `DailyCheckResult`; a `null` result is kept (JSON
keeps `null`, unlike `undefined`). -/
def encodeCheck (c : DailyCheckResult) : Json :=
  Json.obj ([("itemId", Json.str c.itemId),
             ("result", match c.result with
               | some RecordResult.YES => Json.str "YES"
               | some RecordResult.NO => Json.str "NO"
               | none => Json.null)] ++
            optStrField "value" c.value ++
            optStrField "comment" c.comment ++
            optStrField "photo" c.photo)

/-- JSON encoding of a `HealthRecord`. -/
def encodeHealth (h : HealthRecord) : Json :=
  Json.obj ([("temp", Json.str h.temp), ("symptom", Json.str h.symptom.toStr),
             ("wound", Json.str h.wound.toStr)] ++
            optStrField "details" h.details)

/-- JSON encoding of a `DayRecord`. -/
def encodeDayRecord (r : DayRecord) : Json :=
  Json.obj [("date", Json.str r.date),
            ("checks", Json.arr (r.checks.map encodeCheck)),
            ("health", encodeHealth r.health),
            ("lastUpdated", Json.str r.lastUpdated)]

/-- JSON encoding of the configuration array. -/
def encodeConfig (config : List CheckItem) : Json :=
  Json.arr (config.map encodeCheckItem)

/-- JSON encoding of the records map. -/
def encodeRecords (records : List (String × DayRecord)) : Json :=
  Json.obj (records.map (fun p => (p.1, encodeDayRecord p.2)))

/-- The tree `JSON.stringify({ config, records })` serializes — both the
`localStorage` payload and the backup file written by `exportBackupJSON`. -/
def encodeAppState (s : AppState) : Json :=
  Json.obj [("config", encodeConfig s.config), ("records", encodeRecords s.records)]

/-! ## Deserialization (reading the parsed backup back as a typed state)

The import path (`importBackupJSON` + `handleRestore`) adopts the parsed
JSON tree as the new state without a typed decoding step; the `decode*`
readers below formalize "the parsed tree, read back as a typed `AppState`",
which is what the round-trip fidelity claim compares with the original. -/

/-- Read a `CheckItem.type` back from its string form. -/
def decodeItemType : String → Option ItemType
  | "boolean" => some ItemType.boolean
  | "record" => some ItemType.record
  | _ => none

/-- Read a `'なし' | 'あり'` value back from its string form. -/
def decodeJaFlag : String → Option JaFlag
  | "なし" => some JaFlag.nashi
  | "あり" => some JaFlag.ari
  | _ => none

/-- Read an optional string property (absence is a successful `none`). -/
def decodeOptStr (j : Json) (key : String) : Option String :=
  match getField j key with
  | some (Json.str v) => some v
  | _ => none

/-- Read a `CheckItem` back from its JSON encoding. -/
def decodeCheckItem (j : Json) : Option CheckItem :=
  match getField j "id", getField j "category", getField j "text",
        getField j "type", getField j "displayOrder" with
  | some (Json.str id), some (Json.str category), some (Json.str text),
    some (Json.str ty), some (Json.num displayOrder) =>
      match decodeItemType ty with
      | some type => some { id := id, category := category, text := text,
                            type := type, unit := decodeOptStr j "unit",
                            displayOrder := displayOrder }
      | none => none
  | _, _, _, _, _ => none

/-- Read a `DailyCheckResult` back from its JSON encoding. -/
def decodeCheck (j : Json) : Option DailyCheckResult :=
  match getField j "itemId", getField j "result" with
  | some (Json.str itemId), some res =>
      match (match res with
             | Json.str "YES" => some (some RecordResult.YES)
             | Json.str "NO" => some (some RecordResult.NO)
             | Json.null => some none
             | _ => none) with
      | some result => some { itemId := itemId, result := result,
                              value := decodeOptStr j "value",
                              comment := decodeOptStr j "comment",
                              photo := decodeOptStr j "photo" }
      | none => none
  | _, _ => none

/-- Read a `HealthRecord` back from its JSON encoding. -/
def decodeHealth (j : Json) : Option HealthRecord :=
  match getField j "temp", getField j "symptom", getField j "wound" with
  | some (Json.str temp), some (Json.str sy), some (Json.str wo) =>
      match decodeJaFlag sy, decodeJaFlag wo with
      | some symptom, some wound =>
          some { temp := temp, symptom := symptom, wound := wound,
                 details := decodeOptStr j "details" }
      | _, _ => none
  | _, _, _ => none

/-- Read a list of values with a given element reader. -/
def decodeList (dec : Json → Option α) : List Json → Option (List α)
  | [] => some []
  | j :: rest =>
      match dec j, decodeList dec rest with
      | some a, some as => some (a :: as)
      | _, _ => none

/-- Read a `DayRecord` back from its JSON encoding. -/
def decodeDayRecord (j : Json) : Option DayRecord :=
  match getField j "date", getField j "checks", getField j "health",
        getField j "lastUpdated" with
  | some (Json.str date), some (Json.arr checks), some health,
    some (Json.str lastUpdated) =>
      match decodeList decodeCheck checks, decodeHealth health with
      | some cs, some h => some { date := date, checks := cs, health := h,
                                  lastUpdated := lastUpdated }
      | _, _ => none
  | _, _, _, _ => none

/-- Read the records map back from its JSON encoding. -/
def decodeRecordPairs (dec : Json → Option DayRecord) :
    List (String × Json) → Option (List (String × DayRecord))
  | [] => some []
  | (k, j) :: rest =>
      match dec j, decodeRecordPairs dec rest with
      | some r, some rs => some ((k, r) :: rs)
      | _, _ => none

/-- Read a full `AppState` back from the backup's JSON tree. -/
def decodeAppState (j : Json) : Option AppState :=
  match getField j "config", getField j "records" with
  | some (Json.arr cfg), some (Json.obj recs) =>
      match decodeList decodeCheckItem cfg, decodeRecordPairs decodeDayRecord recs with
      | some config, some records => some { config := config, records := records }
      | _, _ => none
  | _, _ => none

/-! ## Load (`App`'s load effect) and restore (`SettingsView.handleRestore`)

These two paths handle untyped parsed JSON, so the React state they set
(`config`, `records`) is modelled at the JSON level. -/

/-- The pair of JS values held by the `config` and `records` state hooks. -/
structure JsState where
  config : Json
  records : Json

/-- The initial hook state: `useState(DEFAULT_CHECKLIST)` and `useState({})`. -/
def initialJsState : JsState :=
  { config := encodeConfig DEFAULT_CHECKLIST, records := Json.obj [] }

/-- Outcome of `localStorage.getItem` + `JSON.parse` in the load effect:
the slot may be absent, hold a string that `JSON.parse` rejects (the parse
throws), or hold a string parsing to a JSON value. -/
inductive StoredValue where
  | absent : StoredValue
  | invalid (raw : String) : StoredValue
  | valid (j : Json) : StoredValue

/-- The load effect of `App`: reads the persisted slot; on a parse exception
the `catch` only logs, leaving the initial state in place; on success each of
`parsed.config` / `parsed.records` is adopted only when truthy.  Total — no
exception escapes the load boundary. -/
def load : StoredValue → JsState
  | StoredValue.absent => initialJsState
  | StoredValue.invalid _ => initialJsState
  | StoredValue.valid j =>
      { config := match getField j "config" with
          | some c => if c.truthy then c else initialJsState.config
          | none => initialJsState.config,
        records := match getField j "records" with
          | some r => if r.truthy then r else initialJsState.records
          | none => initialJsState.records }

/-- The user-visible outcome of `handleRestore`: restored (「復元しました」),
cancelled at the confirm dialog (no change, no message), rejected as an
invalid backup (「無効なバックアップファイルです」), or a read/parse failure
(「読み込みに失敗しました」). -/
inductive RestoreOutcome where
  | restored
  | cancelled
  | invalidFormat
  | readFailure
deriving DecidableEq, Repr

/-- `handleRestore` from `SettingsView`: `importBackupJSON` either rejects
(modelled `Except.error`) — caught as a read failure — or resolves to the
parsed JSON.  A parsed top-level `null` (the file is just `null`) makes the
property access `data.config` throw a TypeError, which the same `catch`
converts to the read-failure message — hence the dedicated `null` arm; every
other JSON value tolerates property access (and `JSON.parse` never yields
`undefined`).  The parsed value is accepted iff `data.config && data.records`
is truthy; on acceptance, and if the user confirms the overwrite, the file's
values replace both hooks wholesale (`setConfig(data.config)`,
`setRecords(data.records)`); otherwise the current state is untouched. -/
def handleRestore (parsed : Except String Json) (confirm : Bool) (cur : JsState) :
    JsState × RestoreOutcome :=
  match parsed with
  | Except.error _ => (cur, RestoreOutcome.readFailure)
  | Except.ok Json.null => (cur, RestoreOutcome.readFailure)
  | Except.ok j =>
      if truthyOpt (getField j "config") && truthyOpt (getField j "records") then
        if confirm then
          ({ config := (getField j "config").getD Json.null,
             records := (getField j "records").getD Json.null },
           RestoreOutcome.restored)
        else (cur, RestoreOutcome.cancelled)
      else (cur, RestoreOutcome.invalidFormat)

/-! ## Tabular (Excel) export (`exportDataToExcel` in the utils module) -/

/-- The cell string for one configured item in one day's row, exactly as
`exportDataToExcel` computes it: base marker from the result
(`良` for YES, `否` for NO, empty otherwise), then — whenever `check?.value`
is truthy (present and non-empty), with no check of the item's type —
`" (value+unit)"` with `item.unit || ''`, then `" [メモ: comment]"` whenever
`check?.comment` is truthy. -/
def cellValue (item : CheckItem) (check : Option DailyCheckResult) : String :=
  let base :=
    match check with
    | some c =>
        match c.result with
        | some RecordResult.YES => "良"
        | some RecordResult.NO => "否"
        | none => ""
    | none => ""
  let withValue :=
    match check with
    | some c =>
        match c.value with
        | some v => if v = "" then base else base ++ " (" ++ v ++ (item.unit.getD "") ++ ")"
        | none => base
    | none => base
  match check with
  | some c =>
      match c.comment with
      | some m => if m = "" then withValue else withValue ++ " [メモ: " ++ m ++ "]"
      | none => withValue
  | none => withValue

/-- The cell encoding as claim C5 states it: identical to `cellValue` except
that the `" (value+unit)"` suffix is only appended when the item's type is
`record`.  Stated from the claim's words, for comparison with the source's
`cellValue`. -/
def cellValueClaimC5 (item : CheckItem) (check : Option DailyCheckResult) : String :=
  let base :=
    match check with
    | some c =>
        match c.result with
        | some RecordResult.YES => "良"
        | some RecordResult.NO => "否"
        | none => ""
    | none => ""
  let withValue :=
    match check with
    | some c =>
        match c.value with
        | some v =>
            if item.type = ItemType.record ∧ v ≠ "" then
              base ++ " (" ++ v ++ (item.unit.getD "") ++ ")"
            else base
        | none => base
    | none => base
  match check with
  | some c =>
      match c.comment with
      | some m => if m = "" then withValue else withValue ++ " [メモ: " ++ m ++ "]"
      | none => withValue
  | none => withValue

/-- The amended cell encoding, stated from the amended claim's words: the
base marker is `良` if the result is YES, `否` if NO, empty otherwise; if a
value is present and non-empty, `" (value+unit)"` is appended regardless of
the item's type, the unit read as empty when absent; if a comment is present
and non-empty, `" [メモ: comment]"` is appended. -/
def cellValueAmendedC5 (item : CheckItem) (check : Option DailyCheckResult) : String :=
  (match check.bind (fun c => c.result) with
   | some RecordResult.YES => "良"
   | some RecordResult.NO => "否"
   | none => "") ++
  (match check.bind (fun c => c.value) with
   | some v => if v ≠ "" then " (" ++ v ++ (item.unit.getD "") ++ ")" else ""
   | none => "") ++
  (match check.bind (fun c => c.comment) with
   | some m => if m ≠ "" then " [メモ: " ++ m ++ "]" else ""
   | none => "")

/-- Column label for a configured item: `` `[${item.category}] ${item.text}` ``. -/
def itemLabel (item : CheckItem) : String :=
  "[" ++ item.category ++ "] " ++ item.text

/-- The fixed leading columns of every exported row. -/
def fixedHeaders : List String :=
  ["日付", "スタッフ体温", "スタッフ症状", "スタッフ傷", "スタッフ備考", "最終更新"]

/-- One exported row, as the ordered key/value list `exportDataToExcel`
builds (JS objects keep insertion order; `json_to_sheet` turns the keys into
the header row).  `record.health.temp || ''` and
`record.health.details || ''` are written as-is: on strings `x || ''` is the
identity up to the empty string, which `Option.getD` reproduces for the
optional `details`.  `fmtDate` stands for the locale formatting
`new Date(...).toLocaleString('ja-JP')` applied to `lastUpdated`, a
collaborator outside the model. -/
def exportRow (fmtDate : String → String) (config : List CheckItem) (r : DayRecord) :
    List (String × String) :=
  [("日付", r.date),
   ("スタッフ体温", r.health.temp),
   ("スタッフ症状", r.health.symptom.toStr),
   ("スタッフ傷", r.health.wound.toStr),
   ("スタッフ備考", r.health.details.getD ""),
   ("最終更新", fmtDate r.lastUpdated)] ++
  config.map (fun item =>
    (itemLabel item, cellValue item (r.checks.find? (fun c => c.itemId == item.id))))

/-- The comparator `(a, b) => b.date.localeCompare(a.date)`: descending by
date string. -/
def dateDesc (a b : DayRecord) : Prop := b.date ≤ a.date

instance : DecidableRel dateDesc := fun a b => by
  unfold dateDesc
  infer_instance

/-- The rows of the exported sheet: `Object.values(records)` (values in key
insertion order), sorted descending by date, each mapped to its row. -/
def excelRows (fmtDate : String → String) (records : List (String × DayRecord))
    (config : List CheckItem) : List (List (String × String)) :=
  ((records.map Prod.snd).insertionSort dateDesc).map (exportRow fmtDate config)

/-! ## Settings operations on the configuration (`SettingsView`) -/

/-- `handleAddItem`: appends a fresh item whose id is
`` `custom_${Date.now()}` ``; `now` is the millisecond clock reading. -/
def handleAddItem (config : List CheckItem) (now : Nat) : List CheckItem :=
  config ++ [{ id := "custom_" ++ toString now, category := "その他",
               text := "新しいチェック項目", type := ItemType.boolean,
               unit := none, displayOrder := (config.length : Int) + 1 }]

/-- `handleDeleteItem`: removes every item with the given id (the confirm
dialog's reject branch simply leaves the state unchanged). -/
def handleDeleteItem (config : List CheckItem) (id : String) : List CheckItem :=
  config.filter (fun c => c.id != id)

/-- The inline text edit in `SettingsView`: replaces the text of the item at
position `idx`, leaving every other field and every other item unchanged. -/
def editItemText : List CheckItem → Nat → String → List CheckItem
  | [], _, _ => []
  | c :: rest, 0, text => { c with text := text } :: rest
  | c :: rest, n + 1, text => c :: editItemText rest n text

/-- The ids of a configuration, in order. -/
def configIds (config : List CheckItem) : List String := config.map (fun c => c.id)

/-- The id-uniqueness invariant on a configuration. -/
def idsUnique (config : List CheckItem) : Prop := (configIds config).Nodup

instance (config : List CheckItem) : Decidable (idsUnique config) := by
  unfold idsUnique
  infer_instance

/-! ## Debounced persistence (`App`'s save effect)

Each change to `config`/`records` re-runs the save effect: the cleanup
`clearTimeout` cancels any pending write and a new `setTimeout(…, 500)` is
scheduled.  The single-threaded event semantics is modelled explicitly:
a saver state carries the pending timer (fire time and the state it would
write) and the log of writes performed. -/

/-- The debounced saver: at most one pending timer, plus the write log. -/
structure DebouncedSaver where
  pending : Option (Nat × AppState)
  writes : List AppState

/-- Saver before any state change: no timer, nothing written. -/
def initSaver : DebouncedSaver := { pending := none, writes := [] }

/-- The timer firing: performs the pending write, if any. -/
def firePending (d : DebouncedSaver) : DebouncedSaver :=
  match d.pending with
  | some (_, s) => { pending := none, writes := d.writes ++ [s] }
  | none => d

/-- A state change arriving at time `t`: if the pending timer was due at or
before `t` it has already fired; then the effect re-runs — the cleanup
cancels whatever is still pending and a write of the new state is scheduled
for `t + 500`. -/
def stepChange (d : DebouncedSaver) (t : Nat) (s : AppState) : DebouncedSaver :=
  let d1 : DebouncedSaver :=
    match d.pending with
    | some (ft, ps) =>
        if ft ≤ t then { pending := none, writes := d.writes ++ [ps] } else d
    | none => d
  { d1 with pending := some (t + 500, s) }

/-- Run a time-ordered sequence of state changes through the saver. -/
def runChanges : DebouncedSaver → List (Nat × AppState) → DebouncedSaver
  | d, [] => d
  | d, (t, s) :: rest => runChanges (stepChange d t s) rest

/-- After time `prev`, every change in the list happens no earlier than the
previous one and strictly within 500ms of it. -/
def gapsWithin : Nat → List (Nat × AppState) → Bool
  | _, [] => true
  | prev, (t, _) :: rest => decide (prev ≤ t) && decide (t < prev + 500) && gapsWithin t rest

/-! ## Theorems for claim C1 -/

/-- **C1**: applying the check-result update (`saveCheck` via `updateRecord`)
to a day record `r` yields a record whose `checks` contain exactly one entry
with `itemId = c.itemId` (namely `c` itself), preserves every check entry
with a different `itemId` unchanged, preserves the health sub-record and the
date, and refreshes `lastUpdated`; the model is a pure function, matching the
source's contract that the input record is not mutated in place. -/
theorem saveCheck_correct (r : DayRecord) (c : DailyCheckResult) (now : String) :
    ((saveCheck r c now).checks.filter (fun x => x.itemId == c.itemId) = [c]) ∧
    ((saveCheck r c now).checks.filter (fun x => x.itemId != c.itemId) =
      r.checks.filter (fun x => x.itemId != c.itemId)) ∧
    (saveCheck r c now).health = r.health ∧
    (saveCheck r c now).date = r.date ∧
    (saveCheck r c now).lastUpdated = now := by
  refine ⟨?_, ?_, rfl, rfl, rfl⟩
  · simp only [saveCheck, List.filter_append]
    rw [List.filter_filter]
    have h1 : r.checks.filter (fun a => a.itemId == c.itemId && (a.itemId != c.itemId)) = [] := by
      apply List.filter_eq_nil_iff.mpr
      intro a _
      by_cases h : a.itemId = c.itemId <;> simp [h]
    rw [h1]
    simp
  · simp only [saveCheck, List.filter_append]
    rw [List.filter_filter]
    have h2 : (fun a : DailyCheckResult => a.itemId != c.itemId && (a.itemId != c.itemId)) =
        fun a : DailyCheckResult => a.itemId != c.itemId := by
      funext a
      by_cases h : a.itemId = c.itemId <;> simp [h]
    rw [h2]
    simp

/-! ## Theorems for claim C2: backup round-trip fidelity -/

theorem decode_encode_checkItem (i : CheckItem) :
    decodeCheckItem (encodeCheckItem i) = some i := by
  obtain ⟨id, category, text, type, unit, displayOrder⟩ := i
  cases type <;> cases unit <;> rfl

theorem decode_encode_check (c : DailyCheckResult) :
    decodeCheck (encodeCheck c) = some c := by
  obtain ⟨itemId, result, value, comment, photo⟩ := c
  rcases result with _ | r
  · cases value <;> cases comment <;> cases photo <;> rfl
  · cases r <;> cases value <;> cases comment <;> cases photo <;> rfl

theorem decode_encode_health (h : HealthRecord) :
    decodeHealth (encodeHealth h) = some h := by
  obtain ⟨temp, symptom, wound, details⟩ := h
  cases symptom <;> cases wound <;> cases details <;> rfl

theorem decodeList_encode (dec : Json → Option α) (enc : α → Json)
    (h : ∀ a, dec (enc a) = some a) :
    ∀ xs : List α, decodeList dec (xs.map enc) = some xs
  | [] => rfl
  | x :: xs => by
      simp only [List.map_cons, decodeList, h x, decodeList_encode dec enc h xs]

theorem decode_encode_dayRecord (r : DayRecord) :
    decodeDayRecord (encodeDayRecord r) = some r := by
  obtain ⟨date, checks, health, lastUpdated⟩ := r
  have hc := decodeList_encode decodeCheck encodeCheck decode_encode_check checks
  have hh := decode_encode_health health
  simp [encodeDayRecord, decodeDayRecord, getField, lookupField, hc, hh]

theorem decodeRecordPairs_encode :
    ∀ rs : List (String × DayRecord),
      decodeRecordPairs decodeDayRecord (rs.map (fun p => (p.1, encodeDayRecord p.2))) = some rs
  | [] => rfl
  | (k, r) :: rs => by
      simp only [List.map_cons, decodeRecordPairs, decode_encode_dayRecord r,
        decodeRecordPairs_encode rs]

/-- **C2**: importing the backup produced by exporting any `AppState` yields
a structurally equal state — the parsed JSON tree of the exported file reads
back as exactly the original configuration and record map, photo payloads
and `displayOrder` included. -/
theorem backup_roundTrip (s : AppState) :
    decodeAppState (encodeAppState s) = some s := by
  obtain ⟨config, records⟩ := s
  have hc := decodeList_encode decodeCheckItem encodeCheckItem decode_encode_checkItem config
  have hr := decodeRecordPairs_encode records
  simp [encodeAppState, encodeConfig, encodeRecords, decodeAppState, getField, lookupField, hc, hr]

/-! ## Theorem for claim C3: progress on an empty configuration -/

/-- **C3, failing input**: with an empty configuration (all items deleted in
settings), `CheckListView` computes `Math.round((0 / 0) * 100)`, i.e. `NaN`
(`none` in the model) — never the `0` the claim requires; the claim's
division-by-zero policy is not implemented. -/
theorem progress_NaN_on_empty_config :
    (∀ r : DayRecord, progress [] r = none) ∧
    (∀ r : DayRecord, progress [] r ≠ some 0) :=
  ⟨fun _ => rfl, fun _ h => by simp [progress] at h⟩

/-! ## Theorems for claim C4: rejecting a backup with missing fields -/

/-- **C4, counterexample**: a file containing just `null` parses
successfully to a top-level value that lacks both the `config` and the
`records` fields, yet the import does not fail with the invalid-backup-format
error: the property access `data.config` throws a TypeError on `null`, and
the `catch` reports the read-failure message instead (the state is still
untouched). -/
theorem restore_null_read_failure_counterexample :
    getField Json.null "config" = none ∧
    getField Json.null "records" = none ∧
    handleRestore (Except.ok Json.null) true initialJsState =
      (initialJsState, RestoreOutcome.readFailure) ∧
    RestoreOutcome.readFailure ≠ RestoreOutcome.invalidFormat :=
  ⟨rfl, rfl, rfl, by decide⟩

/-- **C4, amended**: a parsed import file lacking a top-level `records` (or
`config`) property is rejected and the current state is returned untouched —
no partial adoption; the rejection carries the distinct
invalid-backup-format error, except when the parsed top-level value is
`null`, where the property access `data.config` throws a TypeError that the
`catch` converts to the read-failure error instead. -/
theorem restore_rejects_missing_field (j : Json) (confirm : Bool) (cur : JsState)
    (h : getField j "config" = none ∨ getField j "records" = none) :
    handleRestore (Except.ok j) confirm cur =
      (cur, match j with
            | Json.null => RestoreOutcome.readFailure
            | _ => RestoreOutcome.invalidFormat) := by
  cases j with
  | null => rfl
  | bool b => rfl
  | num n => rfl
  | str s => rfl
  | arr elems => rfl
  | obj fs => rcases h with h | h <;> simp [handleRestore, truthyOpt, h]

theorem restore_rejects_missing_field_witness :
    getField (Json.obj [("config", Json.arr [])]) "records" = none ∧
    handleRestore (Except.ok (Json.obj [("config", Json.arr [])])) true initialJsState =
      (initialJsState, RestoreOutcome.invalidFormat) :=
  ⟨rfl, restore_rejects_missing_field (Json.obj [("config", Json.arr [])]) true initialJsState
    (Or.inr rfl)⟩

/-! ## Theorems for claim C5: tabular export cell encoding -/

/-- **C5, counterexample**: for a `boolean`-type item whose stored check has
result YES and a non-empty `value`, the source appends the value suffix (it
never consults the item's type), so the cell is `"良 (5)"`, while the claim's
encoding (value suffix only for `record`-type items) yields `"良"`. -/
theorem cellValue_type_condition_counterexample :
    cellValue
      { id := "b1", category := "その他", text := "手洗い", type := ItemType.boolean,
        unit := none, displayOrder := 1 }
      (some { itemId := "b1", result := some RecordResult.YES, value := some "5",
              comment := none, photo := none }) = "良 (5)" ∧
    cellValueClaimC5
      { id := "b1", category := "その他", text := "手洗い", type := ItemType.boolean,
        unit := none, displayOrder := 1 }
      (some { itemId := "b1", result := some RecordResult.YES, value := some "5",
              comment := none, photo := none }) = "良" ∧
    ("良 (5)" : String) ≠ "良" := by
  refine ⟨rfl, ?_, by decide⟩
  simp [cellValueClaimC5]

/-- **C5, amended**: the cell is the base marker (`良` for YES, `否` for NO,
empty otherwise), with `" (value+unit)"` appended whenever a non-empty value
is present — regardless of the item's type, the unit read as empty when
absent — and `" [メモ: comment]"` appended whenever a non-empty comment is
present; in particular the spec's worked example holds (`record` item `c3`
with result NO, value `"8"`, unit `℃` gives `"否 (8℃)"`; item `c1` with
result YES gives `"良"`). -/
theorem cellValue_amended_correct :
    (∀ (item : CheckItem) (check : Option DailyCheckResult),
      cellValue item check = cellValueAmendedC5 item check) ∧
    cellValue
      { id := "c3", category := "一般的衛生管理", text := "冷蔵庫の温度確認（10℃以下）",
        type := ItemType.record, unit := some "℃", displayOrder := 3 }
      (some { itemId := "c3", result := some RecordResult.NO, value := some "8",
              comment := none, photo := none }) = "否 (8℃)" ∧
    cellValue
      { id := "c1", category := "一般的衛生管理", text := "調理従事者の健康チェック・服装・手洗い",
        type := ItemType.boolean, unit := none, displayOrder := 1 }
      (some { itemId := "c1", result := some RecordResult.YES, value := none,
              comment := none, photo := none }) = "良" := by
  refine ⟨fun item check => ?_, rfl, rfl⟩
  cases check with
  | none => rfl
  | some c =>
    obtain ⟨cid, result, value, comment, photo⟩ := c
    rcases result with _ | r <;> try cases r
    all_goals rcases value with _ | v
    all_goals rcases comment with _ | m
    all_goals simp [cellValue, cellValueAmendedC5]
    all_goals split_ifs <;>
      simp_all [← String.append_assoc,
        (show ("良" : String) ++ " (" = "良 (" from rfl),
        (show ("否" : String) ++ " (" = "否 (" from rfl),
        (show ("良" : String) ++ " [メモ: " = "良 [メモ: " from rfl),
        (show ("否" : String) ++ " [メモ: " = "否 [メモ: " from rfl)]

/-! ## Theorem for claim C6: load falls back to defaults on corruption -/

/-- **C6**: when the persisted value fails `JSON.parse`, the exception is
caught inside the load effect (the model's `load` is total, so nothing
escapes the boundary) and the state is exactly the default: the seed
checklist configuration and an empty record map. -/
theorem load_invalid_falls_back_to_defaults :
    (∀ raw : String, load (StoredValue.invalid raw) = initialJsState) ∧
    initialJsState.config = encodeConfig DEFAULT_CHECKLIST ∧
    initialJsState.records = Json.obj [] :=
  ⟨fun _ => rfl, rfl, rfl⟩

/-! ## Theorems for claim C7: debounced persistence -/

theorem runChanges_within_window :
    ∀ (rest : List (Nat × AppState)) (tprev : Nat) (sprev : AppState) (d : DebouncedSaver),
      d.pending = some (tprev + 500, sprev) → gapsWithin tprev rest = true →
      runChanges d rest =
        { pending := some ((rest.getLastD (tprev, sprev)).1 + 500,
                           (rest.getLastD (tprev, sprev)).2),
          writes := d.writes }
  | [], tprev, sprev, d, hp, _ => by
      obtain ⟨p, w⟩ := d
      have hp' : p = some (tprev + 500, sprev) := hp
      subst hp'
      rfl
  | (t, s) :: rest, tprev, sprev, d, hp, hg => by
      have hgaps : (tprev ≤ t ∧ t < tprev + 500) ∧ gapsWithin t rest = true := by
        simpa [gapsWithin, Bool.and_eq_true] using hg
      have hstep : stepChange d t s = { pending := some (t + 500, s), writes := d.writes } := by
        simp [stepChange, hp, Nat.not_le.mpr hgaps.1.2]
      have := runChanges_within_window rest t s { pending := some (t + 500, s), writes := d.writes }
        rfl hgaps.2
      simp only [runChanges, hstep, this, List.getLastD_cons]

/-- **C7**: for any nonempty sequence of state changes in which each change
arrives strictly within 500ms of the previous one, no write happens while
the changes arrive (each change cancels the pending timer), and once the
window elapses exactly one write is performed, whose content is the final
state of the sequence. -/
theorem debounce_collapses_to_single_write (t0 : Nat) (s0 : AppState)
    (rest : List (Nat × AppState)) (h : gapsWithin t0 rest = true) :
    (runChanges initSaver ((t0, s0) :: rest)).writes = [] ∧
    (firePending (runChanges initSaver ((t0, s0) :: rest))).writes =
      [(rest.getLastD (t0, s0)).2] := by
  have h2 := runChanges_within_window rest t0 s0 (stepChange initSaver t0 s0) rfl h
  have hrun : runChanges initSaver ((t0, s0) :: rest) =
      runChanges (stepChange initSaver t0 s0) rest := rfl
  rw [hrun, h2]
  exact ⟨rfl, rfl⟩

theorem debounce_collapses_to_single_write_witness :
    gapsWithin 0 [(100, ({ config := [], records := [] } : AppState)),
                  (400, ({ config := DEFAULT_CHECKLIST, records := [] } : AppState))] = true ∧
    (firePending (runChanges initSaver
      [(0, ({ config := [], records := [] } : AppState)),
       (100, ({ config := [], records := [] } : AppState)),
       (400, ({ config := DEFAULT_CHECKLIST, records := [] } : AppState))])).writes =
      [({ config := DEFAULT_CHECKLIST, records := [] } : AppState)] :=
  ⟨by decide,
   (debounce_collapses_to_single_write 0 { config := [], records := [] }
      [(100, { config := [], records := [] }),
       (400, { config := DEFAULT_CHECKLIST, records := [] })] (by decide)).2⟩

/-! ## Theorems for claim C8: tabular export shape -/

instance : IsTotal DayRecord dateDesc :=
  ⟨fun a b => le_total b.date a.date⟩

instance : IsTrans DayRecord dateDesc :=
  ⟨fun _ _ _ hab hbc => le_trans hbc hab⟩

theorem editItemText_ids :
    ∀ (config : List CheckItem) (idx : Nat) (text : String),
      configIds (editItemText config idx text) = configIds config
  | [], _, _ => rfl
  | _ :: rest, 0, _ => rfl
  | c :: rest, n + 1, text => by
      simp only [editItemText, configIds, List.map_cons]
      exact congrArg _ (editItemText_ids rest n text)

/-- **C9, counterexample**: two `handleAddItem` calls with the same
millisecond timestamp (`Date.now()` returning 100 twice) both generate the
id `custom_100`, so starting from the seed configuration the id-uniqueness
invariant is broken by the second add. -/
theorem addItem_same_timestamp_breaks_uniqueness :
    ¬ idsUnique (handleAddItem (handleAddItem DEFAULT_CHECKLIST 100) 100) := by
  decide

/-- **C9, amended**: the seed configuration has pairwise distinct ids;
adding a new item preserves id uniqueness provided its timestamp-derived id
`custom_<now>` is not already present (two adds in the same millisecond
collide); editing an item's text and deleting an item always preserve id
uniqueness. -/
theorem config_ops_preserve_id_uniqueness :
    idsUnique DEFAULT_CHECKLIST ∧
    (∀ (config : List CheckItem) (now : Nat), idsUnique config →
      ("custom_" ++ toString now) ∉ configIds config →
      idsUnique (handleAddItem config now)) ∧
    (∀ (config : List CheckItem) (idx : Nat) (text : String), idsUnique config →
      idsUnique (editItemText config idx text)) ∧
    (∀ (config : List CheckItem) (id : String), idsUnique config →
      idsUnique (handleDeleteItem config id)) := by
  refine ⟨by decide, ?_, ?_, ?_⟩
  · intro config now hu hfresh
    simp only [idsUnique, configIds, handleAddItem, List.map_append, List.map_cons,
      List.map_nil] at hu hfresh ⊢
    simp [List.nodup_append, hu, hfresh]
  · intro config idx text hu
    unfold idsUnique
    rw [editItemText_ids]
    exact hu
  · intro config id hu
    exact List.Nodup.sublist (List.Sublist.map _ (List.filter_sublist _)) hu

theorem config_ops_preserve_id_uniqueness_witness :
    idsUnique (handleAddItem DEFAULT_CHECKLIST 5) ∧
    idsUnique (editItemText DEFAULT_CHECKLIST 0 "手洗い確認") ∧
    idsUnique (handleDeleteItem DEFAULT_CHECKLIST "c1") :=
  ⟨config_ops_preserve_id_uniqueness.2.1 DEFAULT_CHECKLIST 5
      config_ops_preserve_id_uniqueness.1 (by decide),
   config_ops_preserve_id_uniqueness.2.2.1 DEFAULT_CHECKLIST 0 "手洗い確認"
      config_ops_preserve_id_uniqueness.1,
   config_ops_preserve_id_uniqueness.2.2.2 DEFAULT_CHECKLIST "c1"
      config_ops_preserve_id_uniqueness.1⟩

/-! ## Theorems for claim C10: truthiness-only import validation -/

/-- **C10**: backup import validation only checks that the parsed file's
top-level `config` and `records` values are truthy; whatever their inner
shape, a confirmed restore replaces both the configuration and the record
map wholesale with the file's values. -/
theorem restore_accepts_any_truthy_fields (j c r : Json) (cur : JsState)
    (hc : getField j "config" = some c) (hct : c.truthy = true)
    (hr : getField j "records" = some r) (hrt : r.truthy = true) :
    handleRestore (Except.ok j) true cur =
      ({ config := c, records := r }, RestoreOutcome.restored) := by
  cases j with
  | obj fs => simp [handleRestore, hc, hr, truthyOpt, hct, hrt]
  | null => simp [getField] at hc
  | bool b => simp [getField] at hc
  | num n => simp [getField] at hc
  | str s => simp [getField] at hc
  | arr elems => simp [getField] at hc

theorem restore_accepts_any_truthy_fields_witness :
    getField (Json.obj [("config", Json.obj []), ("records", Json.str "x")]) "config" =
      some (Json.obj []) ∧
    getField (Json.obj [("config", Json.obj []), ("records", Json.str "x")]) "records" =
      some (Json.str "x") ∧
    (Json.str "x").truthy = true ∧
    handleRestore (Except.ok (Json.obj [("config", Json.obj []), ("records", Json.str "x")]))
      true initialJsState =
      ({ config := Json.obj [], records := Json.str "x" }, RestoreOutcome.restored) :=
  ⟨rfl, rfl, rfl,
   restore_accepts_any_truthy_fields _ _ _ initialJsState rfl rfl rfl rfl⟩
